import Mathlib

/-!
Shallow embedding of `Step1-Data-Collection/data_collection_main.py`:
the key sampling loop (`get_key_press`), the edge-triggered movement
update (`update_movement_controls`), and the `main` control loop with
its recording-session handling (`record == 1/2/3` branches).

Machine reals (Python floats) are modelled as rationals; the claims at
stake are structural (edge counting, resets, clamping, session state),
not rounding behaviour.  Key status polling (`key_press_module`) is an
external input: each tick supplies a `Key → Bool` snapshot.  The
`data_collection_module` is not part of the sources; its state is
modelled from the spec where noted.
-/

namespace DataCol

/-- The eight control events of `KEY_LIST`. -/
inductive Key where
  | RIGHT | LEFT | UP | DOWN | r | g | s | k
deriving DecidableEq, Repr, Fintype

open Key

/-- `KEY_LIST = ["RIGHT", "LEFT", "UP", "DOWN", "r", "g", "s", "k"]`. -/
def KEY_LIST : List Key := [RIGHT, LEFT, UP, DOWN, r, g, s, k]

/-- Position of a key in `KEY_LIST` (its scan priority). -/
def keyIndex (key : Key) : ℕ := match key with
  | RIGHT => 0 | LEFT => 1 | UP => 2 | DOWN => 3
  | r => 4 | g => 5 | s => 6 | k => 7

/-- Pointwise update of a key-status dictionary. -/
def setKey (f : Key → Bool) (key : Key) (v : Bool) : Key → Bool :=
  fun key' => if key' = key then v else f key'

@[simp] theorem setKey_same (f : Key → Bool) (key : Key) (v : Bool) :
    setKey f key v key = v := by simp [setKey]

theorem setKey_other (f : Key → Bool) (key key' : Key) (v : Bool)
    (h : key' ≠ key) : setKey f key v key' = f key' := by simp [setKey, h]

/-- The mutable program state of `data_collection_main.py`: the globals
(`key_val`, `key_press_t`, `key_press_t_1`, `speed`, `angle`, `record`,
`done`), the `DataCollector` fields, the filesystem's set of existing
`img<i>` directories under the data root, `main`'s local `new_path`
(as a directory index), and the log records `save_log` has persisted.
The three parallel lists `img_list` / `speed_list` / `angle_list` and
the persisted log are modelled from the spec (the
`data_collection_module` source is absent); a frame reference is the
pair (session directory index, frame index used in the file name). -/
structure State where
  key_val : Key
  key_press_t : Key → Bool
  key_press_t_1 : Key → Bool
  speed : ℚ
  angle : ℚ
  record : ℕ
  done : ℕ
  folder_index : ℕ
  dirs : Finset ℕ
  cur_dir : ℕ
  img_list : List (ℕ × ℕ)
  speed_list : List ℚ
  angle_list : List ℚ
  saved_log : List ((ℕ × ℕ) × ℚ × ℚ)

/-- The state right after module initialisation: all key samples false,
`key_val = KEY_LIST[0]`, speed and angle 0, counters 0.  The collector
starts with empty lists and folder index 0 (modelled from the spec:
directory numbering scans "in increasing order starting from 0");
`dirs0` is whatever `img<i>` directories pre-exist under the data root. -/
def initState (dirs0 : Finset ℕ) : State :=
  { key_val := RIGHT
    key_press_t := fun _ => false
    key_press_t_1 := fun _ => false
    speed := 0
    angle := 0
    record := 0
    done := 0
    folder_index := 0
    dirs := dirs0
    cur_dir := 0
    img_list := []
    speed_list := []
    angle_list := []
    saved_log := [] }

/-- The `for key in KEY_LIST` loop body of `get_key_press`: on the first
key whose status reads true, set `key_val` and its current sample and
`break`; keys scanned before it get their current sample set false;
keys after the break point are left untouched. -/
def scanKeys (pressed : Key → Bool) : List Key → State → State
  | [], st => st
  | key :: rest, st =>
    if pressed key then
      { st with key_val := key, key_press_t := setKey st.key_press_t key true }
    else
      scanKeys pressed rest { st with key_press_t := setKey st.key_press_t key false }

/-- `get_key_press()` (lines 93–112): scan `KEY_LIST` in order. -/
def get_key_press (pressed : Key → Bool) (st : State) : State :=
  scanKeys pressed KEY_LIST st

/-- `update_movement_controls()` (lines 114–151): act only on a change
of `key_press_t[key_val]` versus `key_press_t_1[key_val]`; record the
new sample into `key_press_t_1[key_val]`; dispatch on `key_val` only
when the new sample is true (rising edge). -/
def update_movement_controls (st : State) : State :=
  let kv := st.key_val
  if st.key_press_t kv ≠ st.key_press_t_1 kv then
    let st1 := { st with key_press_t_1 := setKey st.key_press_t_1 kv (st.key_press_t kv) }
    if st.key_press_t kv then
      match kv with
      | RIGHT => { st1 with angle := st1.angle + 1/10 }
      | LEFT => { st1 with angle := st1.angle - 1/10 }
      | UP => { st1 with speed := st1.speed + 1/10, angle := 0 }
      | DOWN => { st1 with speed := st1.speed - 1/10, angle := 0 }
      | Key.r => { st1 with record := st1.record + 1 }
      | Key.g => { st1 with speed := 1/2, angle := 0 }
      | Key.s => { st1 with speed := 0, angle := 0 }
      | Key.k => { st1 with done := st1.done + 1 }
    else st1
  else st

/-- One tick of the input/controls part of the loop body:
`get_key_press(); update_movement_controls()`. -/
def controlStep (pressed : Key → Bool) (st : State) : State :=
  update_movement_controls (get_key_press pressed st)

/-- A tick's key snapshot in which exactly the given key is pressed. -/
def pressOnly (key : Key) : Key → Bool := fun key' => key' = key

/-- A tick's key snapshot in which no key is pressed. -/
def pressNone : Key → Bool := fun _ => false

/-- Body of the `while os.path.exists(... f"img{folder_index}")` loop
of the `record == 1` branch (lines 180–181), with explicit fuel so that
the recursion is structural: advance the index upward past existing
`img<i>` directories.  `firstFree` supplies fuel that provably suffices
(among any `dirs.card + 1` consecutive indices one is free), so this
computes exactly the fixpoint the unbounded `while` loop reaches. -/
def firstFreeAux (dirs : Finset ℕ) : ℕ → ℕ → ℕ
  | 0, idx => idx
  | fuel + 1, idx => if idx ∈ dirs then firstFreeAux dirs fuel (idx + 1) else idx

/-- The `while` loop of lines 180–181: the first index `≥ idx` whose
`img<i>` directory does not exist. -/
def firstFree (dirs : Finset ℕ) (idx : ℕ) : ℕ :=
  firstFreeAux dirs (dirs.card + 1) idx

/-- The session-start step (lines 180–183): scan for the first unused
index, then `os.makedirs` that directory.  Returns the allocated index
and the filesystem afterwards. -/
def sessionAlloc (dirs : Finset ℕ) (idx : ℕ) : ℕ × Finset ℕ :=
  let d := firstFree dirs idx
  (d, insert d dirs)

/-- The directory indices allocated by `n` session starts in sequence
against one data root, each continuing from the previous
`folder_index` as `main` does. -/
def allocSeq : ℕ → Finset ℕ → ℕ → List ℕ
  | 0, _, _ => []
  | n + 1, dirs, idx =>
    let p := sessionAlloc dirs idx
    p.1 :: allocSeq n p.2 p.1

/-- How a tick of `main`'s loop body ends: the loop keeps going, the
`break` after the shutdown sequence is taken (`done != 0`), or an
uncaught exception propagates out of the loop (process dies). -/
inductive Outcome where
  | running | exited | crashed
deriving DecidableEq, Repr

/-- A tick's external input: the polled key statuses, and whether
`os.makedirs` would raise on this tick (permissions, disk full). -/
structure Input where
  pressed : Key → Bool
  mkdirFails : Bool

/-- `data_collector.collect_data(img_path, speed, angle)` (modelled
from the spec: append the frame reference and the current speed and
angle to the three parallel in-memory sequences), preceded by the
image capture that names the frame `img_{len(img_list)}_...` inside
`new_path` (lines 186–192). -/
def captureTick (st : State) : State :=
  let ref := (st.cur_dir, st.img_list.length)
  { st with img_list := st.img_list ++ [ref]
            speed_list := st.speed_list ++ [st.speed]
            angle_list := st.angle_list ++ [st.angle] }

/-- `data_collector.save_log()` (modelled from the spec: persist the
buffered triples to the durable log, one record per triple in capture
order). -/
def save_log (st : State) : State :=
  { st with saved_log := st.saved_log ++
      (st.img_list.zip (st.speed_list.zip st.angle_list)) }

/-- One tick of `main`'s `while True` body (lines 166–205):
`get_key_press(); update_movement_controls()`; motor command (no
modelled state); the `record == 1` directory-allocation branch, whose
`os.makedirs` may raise — the exception is not caught, so the tick
ends `crashed`; the `record == 2` capture branch; the `elif record
== 3` flush branch, which calls `save_log` and clears `img_list` and
`angle_list` (and nothing else, per lines 195–198); finally the
`done != 0` shutdown-and-break check. -/
def tick (inp : Input) (st : State) : State × Outcome :=
  let c := controlStep inp.pressed st
  let afterStart :=
    if c.record = 1 then
      let d := firstFree c.dirs c.folder_index
      if inp.mkdirFails then
        Sum.inl { c with folder_index := d }
      else
        Sum.inr { c with folder_index := d, dirs := insert d c.dirs,
                         cur_dir := d, record := c.record + 1 }
    else Sum.inr c
  match afterStart with
  | Sum.inl cFail => (cFail, Outcome.crashed)
  | Sum.inr c1 =>
    let c2 :=
      if c1.record = 2 then captureTick c1
      else if c1.record = 3 then
        { (save_log c1) with record := 0, img_list := [], angle_list := [] }
      else c1
    if c2.done ≠ 0 then (c2, Outcome.exited) else (c2, Outcome.running)

/-- Run `main`'s loop over a finite list of tick inputs; stop early
when a tick exits via `break` or crashes.  If the inputs run out the
loop is still `running`. -/
def run : List Input → State → State × Outcome
  | [], st => (st, Outcome.running)
  | inp :: rest, st =>
    match tick inp st with
    | (st', Outcome.running) => run rest st'
    | (st', o) => (st', o)

/-- The speed observed after each executed tick of a run. -/
def speedTrace : List Input → State → List ℚ
  | [], _ => []
  | inp :: rest, st =>
    match tick inp st with
    | (st', Outcome.running) => st'.speed :: speedTrace rest st'
    | (st', _) => [st'.speed]

/-- Input with only the given key pressed and a healthy filesystem. -/
def inpKey (key : Key) : Input := ⟨pressOnly key, false⟩

/-- Input with no key pressed and a healthy filesystem. -/
def inpNone : Input := ⟨pressNone, false⟩

/-- Iterated `get_key_press(); update_movement_controls()` over a
sequence of per-tick key snapshots: the movement-controls part of the
loop, which is all that touches `speed` and `angle`. -/
def driveRun (ps : List (Key → Bool)) (st : State) : State :=
  ps.foldl (fun s p => controlStep p s) st

/-- `n` press-and-release cycles of the accelerate key: each press is a
fresh rising edge because a no-key tick separates consecutive presses. -/
def upSeq : ℕ → List (Key → Bool)
  | 0 => []
  | n + 1 => pressOnly UP :: pressNone :: upSeq n

/-- The guard of `update_movement_controls`' action branch for a tick
(lines 127–129): after sampling, the current sample of `key_val`
differs from the stored previous sample and is true — a rising edge,
on which alone the dispatch on `key_val` runs. -/
def fired (pressed : Key → Bool) (st : State) : Bool :=
  let st1 := get_key_press pressed st
  (st1.key_press_t st1.key_val != st1.key_press_t_1 st1.key_val)
    && st1.key_press_t st1.key_val

/-- How many ticks of the given input sequence run the edge-triggered
action branch. -/
def fireCount : List (Key → Bool) → State → ℕ
  | [], _ => 0
  | p :: rest, st => (cond (fired p st) 1 0) + fireCount rest (controlStep p st)

/-- A state in which the stop key is `key_val`, currently sampled
pressed, previously not, with nonzero accumulated speed and angle. -/
def stopWitnessState : State :=
  { initState ∅ with key_val := Key.s, key_press_t := pressOnly Key.s,
                     speed := 7/10, angle := -(3/10) }

/-- A state with accumulated speed and angle and the accelerate key
just sampled pressed (rising edge). -/
def upWitnessState : State :=
  { initState ∅ with key_val := UP, key_press_t := pressOnly UP,
                     speed := 2/10, angle := 3/10 }

/-- A key snapshot with two keys pressed at once: LEFT and g. -/
def pressLeftG : Key → Bool := fun key => key = LEFT || key = Key.g

/-- A state whose stored current sample for g is (stale) true. -/
def staleGState : State :=
  { initState ∅ with key_press_t := pressOnly Key.g }

/-- A tick with the record-toggle key pressed on which `os.makedirs`
raises. -/
def inpRFail : Input := ⟨pressOnly Key.r, true⟩

/-! ### Frame and unfolding lemmas -/

/-- The scan loop of `get_key_press` only writes `key_val` and
`key_press_t`; every other field is untouched. -/
theorem scanKeys_frame (pressed : Key → Bool) (l : List Key) (st : State) :
    (scanKeys pressed l st).key_press_t_1 = st.key_press_t_1 ∧
    (scanKeys pressed l st).speed = st.speed ∧
    (scanKeys pressed l st).angle = st.angle ∧
    (scanKeys pressed l st).record = st.record ∧
    (scanKeys pressed l st).done = st.done ∧
    (scanKeys pressed l st).folder_index = st.folder_index ∧
    (scanKeys pressed l st).dirs = st.dirs ∧
    (scanKeys pressed l st).cur_dir = st.cur_dir ∧
    (scanKeys pressed l st).img_list = st.img_list ∧
    (scanKeys pressed l st).speed_list = st.speed_list ∧
    (scanKeys pressed l st).angle_list = st.angle_list ∧
    (scanKeys pressed l st).saved_log = st.saved_log := by
  induction l generalizing st with
  | nil => simp [scanKeys]
  | cons key rest ih =>
    by_cases h : pressed key = true
    · simp [scanKeys, h]
    · simp only [scanKeys, h, Bool.false_eq_true, if_false, if_neg]
      exact ih _

/-- `update_movement_controls` only writes `key_press_t_1`, `speed`,
`angle`, `record` and `done`; the collector, directory and log fields
are untouched, as are `key_val` and `key_press_t`. -/
theorem umc_frame (st : State) :
    (update_movement_controls st).key_val = st.key_val ∧
    (update_movement_controls st).key_press_t = st.key_press_t ∧
    (update_movement_controls st).folder_index = st.folder_index ∧
    (update_movement_controls st).dirs = st.dirs ∧
    (update_movement_controls st).cur_dir = st.cur_dir ∧
    (update_movement_controls st).img_list = st.img_list ∧
    (update_movement_controls st).speed_list = st.speed_list ∧
    (update_movement_controls st).angle_list = st.angle_list ∧
    (update_movement_controls st).saved_log = st.saved_log := by
  cases hkv : st.key_val <;>
    simp only [update_movement_controls, hkv] <;>
    split_ifs <;> simp [hkv]

/-- `get_key_press` never writes the previous-sample dictionary. -/
theorem gkp_prev (pressed : Key → Bool) (st : State) :
    (get_key_press pressed st).key_press_t_1 = st.key_press_t_1 :=
  (scanKeys_frame pressed KEY_LIST st).1

/-- With only key `e` pressed, the scan selects `e`: it becomes
`key_val` and its current sample is recorded true. -/
theorem gkp_pressOnly (e : Key) (st : State) :
    (get_key_press (pressOnly e) st).key_val = e ∧
    (get_key_press (pressOnly e) st).key_press_t e = true := by
  cases e <;> simp [get_key_press, KEY_LIST, scanKeys, pressOnly, setKey]

/-- With no key pressed, the scan leaves `key_val` alone and records
every current sample false. -/
theorem gkp_pressNone (st : State) :
    (get_key_press pressNone st).key_val = st.key_val ∧
    ∀ key, (get_key_press pressNone st).key_press_t key = false := by
  constructor
  · simp [get_key_press, KEY_LIST, scanKeys, pressNone]
  · intro key
    cases key <;> simp [get_key_press, KEY_LIST, scanKeys, pressNone, setKey]

/-- Off `key_val`, `update_movement_controls` leaves the
previous-sample dictionary unchanged. -/
theorem umc_prev_off (st : State) (key : Key) (h : key ≠ st.key_val) :
    (update_movement_controls st).key_press_t_1 key = st.key_press_t_1 key := by
  cases hkv : st.key_val <;> rw [hkv] at h <;>
    simp only [update_movement_controls, hkv] <;>
    split_ifs <;> simp [setKey, h]

/-- On an edge, `update_movement_controls` stores the current sample of
`key_val` as its new previous sample. -/
theorem umc_prev_at (st : State)
    (h : st.key_press_t st.key_val ≠ st.key_press_t_1 st.key_val) :
    (update_movement_controls st).key_press_t_1 st.key_val =
      st.key_press_t st.key_val := by
  cases hkv : st.key_val <;> rw [hkv] at h <;>
    simp only [update_movement_controls, hkv] <;>
    split_ifs <;> simp_all [setKey]

/-- Without an edge on `key_val`, `update_movement_controls` is the
identity. -/
theorem umc_noedge (st : State)
    (h : st.key_press_t st.key_val = st.key_press_t_1 st.key_val) :
    update_movement_controls st = st := by
  simp [update_movement_controls, h]

/-- One press-and-release cycle of UP from any state whose stored
previous sample of UP is false: the press is a rising edge adding
`0.1` to the speed, and the release tick restores the previous sample
to false, so cycles compose. -/
theorem upCycle_step (st : State) (h : st.key_press_t_1 UP = false) :
    (controlStep pressNone (controlStep (pressOnly UP) st)).speed
        = st.speed + 1/10 ∧
    (controlStep pressNone (controlStep (pressOnly UP) st)).key_press_t_1 UP
        = false := by
  simp [controlStep, get_key_press, KEY_LIST, scanKeys, pressOnly, pressNone,
        update_movement_controls, setKey, h]

/-- Speed after `n` press-and-release cycles of UP: each cycle adds
exactly `0.1`, with no bound anywhere. -/
theorem driveRun_upSeq (n : ℕ) (st : State) (h : st.key_press_t_1 UP = false) :
    (driveRun (upSeq n) st).speed = st.speed + n / 10 := by
  induction n generalizing st with
  | zero => simp [upSeq, driveRun]
  | succ m ih =>
    have hc := upCycle_step st h
    have : driveRun (upSeq (m + 1)) st
        = driveRun (upSeq m) (controlStep pressNone (controlStep (pressOnly UP) st)) := by
      simp [upSeq, driveRun, List.foldl]
    rw [this, ih _ hc.2, hc.1]
    push_cast
    ring

/-- A tick with only `e` pressed, from a state whose stored previous
sample of `e` is false: the action branch runs (rising edge) and the
previous sample is updated to true. -/
theorem fire_first (e : Key) (st : State) (h : st.key_press_t_1 e = false) :
    fired (pressOnly e) st = true ∧
    (controlStep (pressOnly e) st).key_press_t_1 e = true := by
  cases e <;>
    simp [fired, controlStep, get_key_press, KEY_LIST, scanKeys, pressOnly,
          update_movement_controls, setKey, h]

/-- A tick with only `e` pressed, from a state whose stored previous
sample of `e` is already true (the key is being held): the action
branch does not run and the previous sample stays true. -/
theorem hold_nofire (e : Key) (st : State) (h : st.key_press_t_1 e = true) :
    fired (pressOnly e) st = false ∧
    (controlStep (pressOnly e) st).key_press_t_1 e = true := by
  cases e <;>
    simp [fired, controlStep, get_key_press, KEY_LIST, scanKeys, pressOnly,
          update_movement_controls, setKey, h]

/-- Holding `e` for any number of further ticks after the first fires
the action zero more times. -/
theorem fireCount_hold (e : Key) (n : ℕ) (st : State)
    (h : st.key_press_t_1 e = true) :
    fireCount (List.replicate n (pressOnly e)) st = 0 := by
  induction n generalizing st with
  | zero => simp [fireCount]
  | succ m ih =>
    have hh := hold_nofire e st h
    simp [List.replicate, fireCount, hh.1, ih _ hh.2]

/-- Stepping past an occupied index strictly shrinks the set of
occupied indices still ahead of the scan. -/
theorem filter_card_lt (dirs : Finset ℕ) (idx : ℕ) (h : idx ∈ dirs) :
    (dirs.filter (fun j => idx + 1 ≤ j)).card
      < (dirs.filter (fun j => idx ≤ j)).card := by
  apply Finset.card_lt_card
  constructor
  · intro j hj
    simp only [Finset.mem_filter] at hj ⊢
    exact ⟨hj.1, by omega⟩
  · intro hsub
    have hmem : idx ∈ dirs.filter (fun j => idx + 1 ≤ j) :=
      hsub (by simp only [Finset.mem_filter]; exact ⟨h, le_refl idx⟩)
    simp only [Finset.mem_filter] at hmem
    omega

/-- With enough fuel the bounded scan computes the `while` loop's
fixpoint: the first free index at or above the start. -/
theorem firstFreeAux_spec (fuel : ℕ) :
    ∀ (dirs : Finset ℕ) (idx : ℕ),
      (dirs.filter (fun j => idx ≤ j)).card < fuel →
      firstFreeAux dirs fuel idx ∉ dirs ∧
      idx ≤ firstFreeAux dirs fuel idx ∧
      ∀ j, idx ≤ j → j < firstFreeAux dirs fuel idx → j ∈ dirs := by
  induction fuel with
  | zero => intro dirs idx h; omega
  | succ m ih =>
    intro dirs idx h
    by_cases hidx : idx ∈ dirs
    · have hlt := filter_card_lt dirs idx hidx
      have hrec := ih dirs (idx + 1) (by omega)
      refine ⟨by simpa [firstFreeAux, hidx] using hrec.1,
              by simp only [firstFreeAux, hidx, if_true]; omega, ?_⟩
      intro j hj1 hj2
      simp only [firstFreeAux, hidx, if_true] at hj2
      rcases Nat.eq_or_lt_of_le hj1 with rfl | hj1'
      · exact hidx
      · exact hrec.2.2 j (by omega) hj2
    · exact ⟨by simp [firstFreeAux, hidx], by simp [firstFreeAux, hidx],
             fun j hj1 hj2 => by simp only [firstFreeAux, hidx, if_false] at hj2; omega⟩

/-- The scan of lines 180–181 lands on the first index at or above
`folder_index` whose directory does not exist. -/
theorem firstFree_spec (dirs : Finset ℕ) (idx : ℕ) :
    firstFree dirs idx ∉ dirs ∧
    idx ≤ firstFree dirs idx ∧
    ∀ j, idx ≤ j → j < firstFree dirs idx → j ∈ dirs :=
  firstFreeAux_spec (dirs.card + 1) dirs idx
    (Nat.lt_succ_of_le (Finset.card_filter_le dirs _))

/-- Session starts in sequence allocate pairwise distinct directory
indices, none of which existed under the data root beforehand. -/
theorem allocSeq_spec (K : ℕ) :
    ∀ (dirs : Finset ℕ) (idx : ℕ),
      (allocSeq K dirs idx).Nodup ∧
      ∀ d ∈ allocSeq K dirs idx, d ∉ dirs := by
  induction K with
  | zero => intro dirs idx; simp [allocSeq]
  | succ m ih =>
    intro dirs idx
    have hfree := (firstFree_spec dirs idx).1
    have hrec := ih (insert (firstFree dirs idx) dirs) (firstFree dirs idx)
    constructor
    · refine List.nodup_cons.mpr ⟨?_, hrec.1⟩
      intro hmem
      exact hrec.2 _ hmem (Finset.mem_insert_self _ _)
    · intro d hd
      rcases List.mem_cons.mp hd with rfl | hd'
      · exact hfree
      · intro hdm
        exact hrec.2 d hd' (Finset.mem_insert_of_mem hdm)

/-! ### Claims -/

/-- Claim C1 as stated is false: `update_movement_controls` applies no
clamping at all, so no configured bound `[-max, +max]` can contain the
speed reached by repeated accelerate increments — `n` press-and-release
cycles of UP drive the speed to `n/10`, beyond any candidate bound. -/
theorem C1_counterexample :
    ¬ ∃ maxS maxA : ℚ, ∀ ps : List (Key → Bool),
        |(driveRun ps (initState ∅)).speed| ≤ maxS ∧
        |(driveRun ps (initState ∅)).angle| ≤ maxA := by
  rintro ⟨maxS, maxA, h⟩
  obtain ⟨n, hn⟩ := exists_nat_gt (maxS * 10)
  have hs := (h (upSeq n)).1
  have heq : (driveRun (upSeq n) (initState ∅)).speed = n / 10 := by
    simpa [initState] using driveRun_upSeq n (initState ∅) rfl
  rw [heq] at hs
  have hle : (n : ℚ) / 10 ≤ maxS := le_trans (le_abs_self _) hs
  linarith

/-- Claim C1 amended: no clamping is applied to the increments.  Each
rising edge of the accelerate event adds exactly `0.1` to the speed
with no saturation: after `n` press-and-release cycles of UP the speed
is exactly `n/10`, and every bound `M` is exceeded by some event
sequence. -/
theorem C1_no_clamp :
    (∀ n : ℕ, (driveRun (upSeq n) (initState ∅)).speed = n / 10) ∧
    ∀ M : ℚ, ∃ ps : List (Key → Bool), M < (driveRun ps (initState ∅)).speed := by
  have key : ∀ n : ℕ, (driveRun (upSeq n) (initState ∅)).speed = n / 10 :=
    fun n => by simpa [initState] using driveRun_upSeq n (initState ∅) rfl
  refine ⟨key, fun M => ?_⟩
  obtain ⟨n, hn⟩ := exists_nat_gt (M * 10)
  exact ⟨upSeq n, by rw [key n]; linarith⟩

/-- Claim C2, evaluated on a completed two-frame recording session
(toggle on, one idle tick, toggle off): the flush of the `record == 3`
branch clears `img_list` and `angle_list` but not the speed log, so a
later session does not start with all three sequences empty and the
equal-length invariant is broken in the Idle state. -/
theorem C2_code_bug_eval :
    (run [inpKey Key.r, inpNone, inpKey Key.r] (initState ∅)).1.record = 0 ∧
    (run [inpKey Key.r, inpNone, inpKey Key.r] (initState ∅)).1.img_list = [] ∧
    (run [inpKey Key.r, inpNone, inpKey Key.r] (initState ∅)).1.angle_list = [] ∧
    (run [inpKey Key.r, inpNone, inpKey Key.r] (initState ∅)).1.speed_list = [0, 0] ∧
    (run [inpKey Key.r, inpNone, inpKey Key.r] (initState ∅)).1.speed_list ≠ [] ∧
    (run [inpKey Key.r, inpNone, inpKey Key.r] (initState ∅)).1.saved_log.length = 2 := by
  decide

/-- Claim C3: holding a control event pressed for `n` consecutive ticks
after its stored previous sample was false runs the edge-triggered
action exactly once, on the first tick (the rising edge), not `n`
times. -/
theorem C3_debounce (e : Key) (st : State) (n : ℕ)
    (h : st.key_press_t_1 e = false) (hn : 1 ≤ n) :
    fireCount (List.replicate n (pressOnly e)) st = 1 ∧
    fired (pressOnly e) st = true := by
  obtain ⟨m, rfl⟩ : ∃ m, n = m + 1 := ⟨n - 1, by omega⟩
  have hf := fire_first e st h
  refine ⟨?_, hf.1⟩
  rw [List.replicate_succ]
  simp [fireCount, hf.1, fireCount_hold e m _ hf.2]

/-- Witness for C3: holding UP for 5 ticks from the initial state fires
exactly once, on the first tick. -/
theorem C3_debounce_witness :
    fireCount (List.replicate 5 (pressOnly UP)) (initState ∅) = 1 ∧
    fired (pressOnly UP) (initState ∅) = true :=
  C3_debounce UP (initState ∅) 5 rfl (by decide)

/-- Claim C4 as stated is false: a quit edge while the session is
Capturing (toggle recording on, then press k on the next tick) makes
the loop exit with the persisted log still empty and two captured
triples still buffered in memory — `save_log` is never called on the
shutdown path of lines 200–205. -/
theorem C4_counterexample :
    (run [inpKey Key.r, inpKey Key.k] (initState ∅)).2 = Outcome.exited ∧
    (run [inpKey Key.r, inpKey Key.k] (initState ∅)).1.saved_log = [] ∧
    (run [inpKey Key.r, inpKey Key.k] (initState ∅)).1.img_list ≠ [] ∧
    (run [inpKey Key.r, inpKey Key.k] (initState ∅)).1.record = 2 := by
  decide

/-- Claim C4 amended: when the quit event fires on a tick on which the
session is Capturing (`record == 2` after the controls update), the
loop stops the motors, releases the resources and exits without
flushing — the persisted log is left exactly as it was and the session
stays in the Capturing state. -/
theorem C4_no_flush_on_quit (st : State) (inp : Input)
    (hrec : (controlStep inp.pressed st).record = 2)
    (hdone : (controlStep inp.pressed st).done ≠ 0) :
    (tick inp st).2 = Outcome.exited ∧
    (tick inp st).1.saved_log = (controlStep inp.pressed st).saved_log ∧
    (tick inp st).1.record = 2 := by
  simp [tick, hrec, hdone, captureTick]

/-- Witness for C4 amended: from the state one toggle-recording tick
after the initial state, a quit tick exits with nothing flushed. -/
theorem C4_no_flush_on_quit_witness :
    (tick (inpKey Key.k) (run [inpKey Key.r] (initState ∅)).1).2 = Outcome.exited ∧
    (tick (inpKey Key.k) (run [inpKey Key.r] (initState ∅)).1).1.saved_log
      = (controlStep (inpKey Key.k).pressed (run [inpKey Key.r] (initState ∅)).1).saved_log ∧
    (tick (inpKey Key.k) (run [inpKey Key.r] (initState ∅)).1).1.record = 2 :=
  C4_no_flush_on_quit (run [inpKey Key.r] (initState ∅)).1 (inpKey Key.k)
    (by decide) (by decide)

/-- Claim C5: on any tick where the stop event is the selected key and
its sample is a rising edge, the movement update zeroes both speed and
angle, whatever was accumulated before. -/
theorem C5_stop (st : State) (hkv : st.key_val = Key.s)
    (hc : st.key_press_t Key.s = true) (hp : st.key_press_t_1 Key.s = false) :
    (update_movement_controls st).speed = 0 ∧
    (update_movement_controls st).angle = 0 := by
  simp [update_movement_controls, hkv, hc, hp]

/-- Witness for C5: a state with speed 0.7 and angle −0.3 and a rising
edge of the stop key is zeroed. -/
theorem C5_stop_witness :
    (update_movement_controls stopWitnessState).speed = 0 ∧
    (update_movement_controls stopWitnessState).angle = 0 :=
  C5_stop stopWitnessState rfl rfl rfl

/-- Claim C6: the session-start scan allocates the first index at or
above the current folder index whose directory does not exist, and `K`
session starts in sequence against one data root — pre-populated or
not — allocate `K` pairwise distinct indices none of which existed
before, so no existing directory is ever overwritten. -/
theorem C6_session_dirs (K : ℕ) (dirs : Finset ℕ) (idx : ℕ) :
    (firstFree dirs idx ∉ dirs ∧ idx ≤ firstFree dirs idx ∧
      ∀ j, idx ≤ j → j < firstFree dirs idx → j ∈ dirs) ∧
    (allocSeq K dirs idx).Nodup ∧
    ∀ d ∈ allocSeq K dirs idx, d ∉ dirs :=
  ⟨firstFree_spec dirs idx, (allocSeq_spec K dirs idx).1, (allocSeq_spec K dirs idx).2⟩

/-- Witness for C6: three sessions against a data root already holding
`img0`, `img1`, `img3` allocate distinct fresh indices (2, 4, 5), and
the allocated index 4 was not among the pre-existing ones. -/
theorem C6_session_dirs_witness :
    (allocSeq 3 {0, 1, 3} 0).Nodup ∧ 4 ∉ ({0, 1, 3} : Finset ℕ) :=
  ⟨(C6_session_dirs 3 {0, 1, 3} 0).2.1,
   (C6_session_dirs 3 {0, 1, 3} 0).2.2 4 (by decide)⟩

/-- Claim C7 as stated is false: a directory-creation failure on the
session-start tick does not revert the session to Idle and keep the
loop ticking — the uncaught `os.makedirs` exception escapes the loop
(the run crashes) with `record` still 1. -/
theorem C7_counterexample :
    (run [inpRFail] (initState ∅)).2 = Outcome.crashed ∧
    (run [inpRFail] (initState ∅)).2 ≠ Outcome.running ∧
    (run [inpRFail] (initState ∅)).1.record = 1 := by
  decide

/-- Claim C7 amended: if `os.makedirs` fails during the session-start
step (`record == 1`), the exception propagates out of the control loop
and terminates the process; the session is not reverted to Idle
(`record` remains 1). -/
theorem C7_mkdir_failure_crashes (st : State) (inp : Input)
    (hmk : inp.mkdirFails = true)
    (hrec : (controlStep inp.pressed st).record = 1) :
    (tick inp st).2 = Outcome.crashed ∧
    (tick inp st).1.record = 1 := by
  simp [tick, hrec, hmk]

/-- Witness for C7 amended: pressing the record toggle on a tick where
directory creation fails crashes the run from the initial state. -/
theorem C7_mkdir_failure_crashes_witness :
    (tick inpRFail (initState ∅)).2 = Outcome.crashed ∧
    (tick inpRFail (initState ∅)).1.record = 1 :=
  C7_mkdir_failure_crashes (initState ∅) inpRFail rfl (by decide)

/-- The speed after each tick of the four-tick feed UP, UP, r, r from
the initial state. -/
theorem speedTrace_scenario :
    speedTrace [inpKey UP, inpKey UP, inpKey Key.r, inpKey Key.r] (initState ∅)
      = [1/10, 1/10, 1/10, 1/10] := by
  simp +decide [speedTrace, tick, controlStep, get_key_press, KEY_LIST, scanKeys,
    update_movement_controls, setKey, pressOnly, pressNone, inpKey, initState,
    captureTick, save_log, firstFree, firstFreeAux]

/-- Claim C8 as stated is false: feeding UP, UP, r, r one per tick
produces the speed trajectory `[0.1, 0.1, 0.1, 0.1]`, not
`[0.1, 0.2, 0.2, 0.2]` — the second consecutive UP sample is not a
rising edge, so it does not fire. -/
theorem C8_counterexample :
    speedTrace [inpKey UP, inpKey UP, inpKey Key.r, inpKey Key.r] (initState ∅)
      = [1/10, 1/10, 1/10, 1/10] ∧
    speedTrace [inpKey UP, inpKey UP, inpKey Key.r, inpKey Key.r] (initState ∅)
      ≠ [1/10, 2/10, 2/10, 2/10] := by
  refine ⟨speedTrace_scenario, ?_⟩
  rw [speedTrace_scenario]
  intro hc
  rw [List.cons.injEq, List.cons.injEq] at hc
  have h2 := hc.2.1
  norm_num at h2

/-- Claim C8 amended: on the tick feed UP, UP, r, r the speed
trajectory is `[0.1, 0.1, 0.1, 0.1]` (the held second UP produces no
edge); the recording session opens and captures its first frame on the
same tick on which the first r fires, captures a second frame on the
next tick, and the held second r produces no edge, so after the four
ticks the session is still Capturing and nothing has been flushed. -/
theorem C8_actual_run :
    speedTrace [inpKey UP, inpKey UP, inpKey Key.r, inpKey Key.r] (initState ∅)
      = [1/10, 1/10, 1/10, 1/10] ∧
    ((run [inpKey UP, inpKey UP] (initState ∅)).1.record = 0 ∧
    (run [inpKey UP, inpKey UP] (initState ∅)).1.img_list = [] ∧
    (run [inpKey UP, inpKey UP, inpKey Key.r] (initState ∅)).1.record = 2 ∧
    (run [inpKey UP, inpKey UP, inpKey Key.r] (initState ∅)).1.img_list.length = 1 ∧
    (run [inpKey UP, inpKey UP, inpKey Key.r, inpKey Key.r] (initState ∅)).1.record = 2 ∧
    (run [inpKey UP, inpKey UP, inpKey Key.r, inpKey Key.r] (initState ∅)).1.img_list.length = 2 ∧
    (run [inpKey UP, inpKey UP, inpKey Key.r, inpKey Key.r] (initState ∅)).1.saved_log = [] ∧
    (run [inpKey UP, inpKey UP, inpKey Key.r, inpKey Key.r] (initState ∅)).2 = Outcome.running) :=
  ⟨speedTrace_scenario, by decide⟩

/-- Claim C9: if `f` is the first key in the `KEY_LIST` priority order
whose status reads pressed, the scan makes `f` the `key_val` and
records its current sample true, leaves the stored current samples of
every key later in the order unchanged (the scan breaks before
refreshing them), and the controls update touches the stored
previous-sample state of no key other than `f` — only `f`'s edge is
evaluated on the tick. -/
theorem C9_priority (pressed : Key → Bool) (st : State) (f : Key)
    (hpf : pressed f = true)
    (hbefore : ∀ key, keyIndex key < keyIndex f → pressed key = false) :
    (get_key_press pressed st).key_val = f ∧
    (get_key_press pressed st).key_press_t f = true ∧
    (∀ key, keyIndex f < keyIndex key →
      (get_key_press pressed st).key_press_t key = st.key_press_t key) ∧
    (∀ key, key ≠ f →
      (controlStep pressed st).key_press_t_1 key = st.key_press_t_1 key) := by
  have hmain : (get_key_press pressed st).key_val = f ∧
      (get_key_press pressed st).key_press_t f = true ∧
      ∀ key, keyIndex f < keyIndex key →
        (get_key_press pressed st).key_press_t key = st.key_press_t key := by
    cases f with
    | RIGHT =>
      refine ⟨by simp [get_key_press, KEY_LIST, scanKeys, hpf],
              by simp [get_key_press, KEY_LIST, scanKeys, hpf], ?_⟩
      intro key hk
      cases key <;> simp [keyIndex] at hk <;>
        simp [get_key_press, KEY_LIST, scanKeys, hpf, setKey]
    | LEFT =>
      have h0 := hbefore RIGHT (by decide)
      refine ⟨by simp [get_key_press, KEY_LIST, scanKeys, hpf, h0],
              by simp [get_key_press, KEY_LIST, scanKeys, hpf, h0], ?_⟩
      intro key hk
      cases key <;> simp [keyIndex] at hk <;>
        simp [get_key_press, KEY_LIST, scanKeys, hpf, h0, setKey]
    | UP =>
      have h0 := hbefore RIGHT (by decide)
      have h1 := hbefore LEFT (by decide)
      refine ⟨by simp [get_key_press, KEY_LIST, scanKeys, hpf, h0, h1],
              by simp [get_key_press, KEY_LIST, scanKeys, hpf, h0, h1], ?_⟩
      intro key hk
      cases key <;> simp [keyIndex] at hk <;>
        simp [get_key_press, KEY_LIST, scanKeys, hpf, h0, h1, setKey]
    | DOWN =>
      have h0 := hbefore RIGHT (by decide)
      have h1 := hbefore LEFT (by decide)
      have h2 := hbefore UP (by decide)
      refine ⟨by simp [get_key_press, KEY_LIST, scanKeys, hpf, h0, h1, h2],
              by simp [get_key_press, KEY_LIST, scanKeys, hpf, h0, h1, h2], ?_⟩
      intro key hk
      cases key <;> simp [keyIndex] at hk <;>
        simp [get_key_press, KEY_LIST, scanKeys, hpf, h0, h1, h2, setKey]
    | r =>
      have h0 := hbefore RIGHT (by decide)
      have h1 := hbefore LEFT (by decide)
      have h2 := hbefore UP (by decide)
      have h3 := hbefore DOWN (by decide)
      refine ⟨by simp [get_key_press, KEY_LIST, scanKeys, hpf, h0, h1, h2, h3],
              by simp [get_key_press, KEY_LIST, scanKeys, hpf, h0, h1, h2, h3], ?_⟩
      intro key hk
      cases key <;> simp [keyIndex] at hk <;>
        simp [get_key_press, KEY_LIST, scanKeys, hpf, h0, h1, h2, h3, setKey]
    | g =>
      have h0 := hbefore RIGHT (by decide)
      have h1 := hbefore LEFT (by decide)
      have h2 := hbefore UP (by decide)
      have h3 := hbefore DOWN (by decide)
      have h4 := hbefore Key.r (by decide)
      refine ⟨by simp [get_key_press, KEY_LIST, scanKeys, hpf, h0, h1, h2, h3, h4],
              by simp [get_key_press, KEY_LIST, scanKeys, hpf, h0, h1, h2, h3, h4], ?_⟩
      intro key hk
      cases key <;> simp [keyIndex] at hk <;>
        simp [get_key_press, KEY_LIST, scanKeys, hpf, h0, h1, h2, h3, h4, setKey]
    | s =>
      have h0 := hbefore RIGHT (by decide)
      have h1 := hbefore LEFT (by decide)
      have h2 := hbefore UP (by decide)
      have h3 := hbefore DOWN (by decide)
      have h4 := hbefore Key.r (by decide)
      have h5 := hbefore Key.g (by decide)
      refine ⟨by simp [get_key_press, KEY_LIST, scanKeys, hpf, h0, h1, h2, h3, h4, h5],
              by simp [get_key_press, KEY_LIST, scanKeys, hpf, h0, h1, h2, h3, h4, h5], ?_⟩
      intro key hk
      cases key <;> simp [keyIndex] at hk
      simp [get_key_press, KEY_LIST, scanKeys, hpf, h0, h1, h2, h3, h4, h5, setKey]
    | k =>
      have h0 := hbefore RIGHT (by decide)
      have h1 := hbefore LEFT (by decide)
      have h2 := hbefore UP (by decide)
      have h3 := hbefore DOWN (by decide)
      have h4 := hbefore Key.r (by decide)
      have h5 := hbefore Key.g (by decide)
      have h6 := hbefore Key.s (by decide)
      refine ⟨by simp [get_key_press, KEY_LIST, scanKeys, hpf, h0, h1, h2, h3, h4, h5, h6],
              by simp [get_key_press, KEY_LIST, scanKeys, hpf, h0, h1, h2, h3, h4, h5, h6], ?_⟩
      intro key hk
      cases key <;> simp [keyIndex] at hk
  refine ⟨hmain.1, hmain.2.1, hmain.2.2, ?_⟩
  intro key hk
  have hne : key ≠ (get_key_press pressed st).key_val := by
    rw [hmain.1]; exact hk
  calc (controlStep pressed st).key_press_t_1 key
      = (get_key_press pressed st).key_press_t_1 key :=
        umc_prev_off (get_key_press pressed st) key hne
    _ = st.key_press_t_1 key := congrFun (gkp_prev pressed st) key

/-- Witness for C9: with LEFT and g pressed on the same tick from a
state whose stored current sample for g is stale true, LEFT (earlier
in the priority order) wins `key_val` and g's stored sample is left
untouched by the scan. -/
theorem C9_priority_witness :
    (get_key_press pressLeftG staleGState).key_val = Key.LEFT ∧
    (get_key_press pressLeftG staleGState).key_press_t Key.g
      = staleGState.key_press_t Key.g :=
  ⟨(C9_priority pressLeftG staleGState Key.LEFT (by decide) (by decide)).1,
   (C9_priority pressLeftG staleGState Key.LEFT (by decide) (by decide)).2.2.1
     Key.g (by decide)⟩

/-- Claim C10: on a rising edge, UP, DOWN and g all reset the steering
angle to 0 as a side effect (UP and DOWN while stepping speed by
±0.1, g while setting speed to 0.5), whereas RIGHT and LEFT leave the
speed unchanged and step the angle by ±0.1. -/
theorem C10_angle_reset (st : State)
    (hc : st.key_press_t st.key_val = true)
    (hp : st.key_press_t_1 st.key_val = false) :
    (st.key_val = UP → (update_movement_controls st).speed = st.speed + 1/10 ∧
      (update_movement_controls st).angle = 0) ∧
    (st.key_val = DOWN → (update_movement_controls st).speed = st.speed - 1/10 ∧
      (update_movement_controls st).angle = 0) ∧
    (st.key_val = Key.g → (update_movement_controls st).speed = 1/2 ∧
      (update_movement_controls st).angle = 0) ∧
    (st.key_val = RIGHT → (update_movement_controls st).speed = st.speed ∧
      (update_movement_controls st).angle = st.angle + 1/10) ∧
    (st.key_val = LEFT → (update_movement_controls st).speed = st.speed ∧
      (update_movement_controls st).angle = st.angle - 1/10) := by
  refine ⟨?_, ?_, ?_, ?_, ?_⟩ <;> intro hkv <;> rw [hkv] at hc hp <;>
    simp [update_movement_controls, hkv, hc, hp]

/-- Witness for C10: a rising edge of UP from speed 0.2 and angle 0.3
steps the speed to 0.3 and resets the angle to 0. -/
theorem C10_angle_reset_witness :
    (update_movement_controls upWitnessState).speed = upWitnessState.speed + 1/10 ∧
    (update_movement_controls upWitnessState).angle = 0 :=
  (C10_angle_reset upWitnessState rfl rfl).1 rfl

end DataCol
